import Mathlib

/-
Verification of bond/ext/grpc/detail/service_call_data.h: the per-method
acceptor class service_unary_call_data. The class is embedded as a state
machine over a state record that carries the member fields of the object
together with the trace of effects it has issued to its two collaborators:
the service registry (service.queue_receive calls) and the thread pool
(schedule calls). Pointers and heap objects are modelled by numeric ids:
each new unary_call_impl allocation receives the next id from an allocation
counter, so distinct allocations have distinct ids. A BOOST_ASSERT failure
is modelled as the operation returning none.
-/

namespace BondGrpc

/-- One service.queue_receive invocation as observed by the external service
registry: the method index, the id of the unary_call_impl whose context,
request and responder addresses were passed, the completion-queue pointer,
and the tag pointer (the acceptor passes this). -/
structure ArmEvent where
  methodIndex : Int
  recordId : Nat
  cq : Nat
  tag : Nat
deriving DecidableEq

/-- One task handed to threadPool.schedule: the scheduled lambda captures the
user callback member and the detached intrusive_ptr handle to the received
unary_call_impl (none when the released unique_ptr was already empty). -/
structure Task where
  cb : Nat
  handle : Option Nat
deriving DecidableEq

/-- The state of one service_unary_call_data object, together with the record
of effects issued so far. Fields self, service, methodIndex, cq, threadPool
and cb mirror the member fields (self is the address of the object, the tag
it passes as this). receivedCall mirrors the std::unique_ptr member
_receivedCall, nextId is the allocation counter for fresh unary_call_impl
objects, armCalls and tasks are the effect trace. -/
structure SUCDState where
  self : Nat
  service : Nat
  methodIndex : Int
  cq : Nat
  threadPool : Nat
  cb : Nat
  receivedCall : Option Nat
  nextId : Nat
  armCalls : List ArmEvent
  tasks : List Task
deriving DecidableEq

/-- private member queue_receive: BOOST_ASSERT that no CallRecord is pending
(result none models the assertion firing), then allocate a fresh
unary_call_impl into _receivedCall and register an asynchronous accept with
the service for _methodIndex against _cq, tagged with this. -/
def queue_receive (s : SUCDState) : Option SUCDState :=
  match s.receivedCall with
  | some _ => none
  | none =>
    some { s with
      receivedCall := some s.nextId,
      nextId := s.nextId + 1,
      armCalls := s.armCalls ++ [⟨s.methodIndex, s.nextId, s.cq, s.self⟩] }

/-- Constructor arguments of service_unary_call_data: the service reference,
the method index, the completion-queue pointer, the thread-pool shared_ptr
and the user callback. cq, threadPool and cb can be null or empty (none).
self is the address the constructed object will have. -/
structure CtorArgs where
  service : Nat
  methodIndex : Int
  cq : Option Nat
  threadPool : Option Nat
  cb : Option Nat
  self : Nat
deriving DecidableEq

/-- The constructor: initialize the members, BOOST_ASSERT that _cq,
_threadPool and _cb are non-null and non-empty (none models an assertion
firing), then call queue_receive once. -/
def service_unary_call_data (a : CtorArgs) : Option SUCDState :=
  match a.cq, a.threadPool, a.cb with
  | some cq, some tp, some cb =>
    queue_receive
      { self := a.self, service := a.service, methodIndex := a.methodIndex,
        cq := cq, threadPool := tp, cb := cb, receivedCall := none,
        nextId := 0, armCalls := [], tasks := [] }
  | _, _, _ => none

/-- member invoke(bool ok): when ok, release _receivedCall into a shared
intrusive_ptr handle (the unique_ptr member becomes empty), schedule a task
capturing the callback and that handle on the thread pool, then call
queue_receive again; when not ok, do nothing (shutdown). -/
def invoke (s : SUCDState) (ok : Bool) : Option SUCDState :=
  if ok then
    queue_receive { s with
      receivedCall := none,
      tasks := s.tasks ++ [⟨s.cb, s.receivedCall⟩] }
  else
    some s

/-- The state after one successful completion (the value invoke always
produces on ok = true, see invoke_true_eq): the detached handle is captured
by one new task, and one new arm event carries the fresh record. -/
def stepTrue (s : SUCDState) : SUCDState :=
  { s with
    receivedCall := some s.nextId,
    nextId := s.nextId + 1,
    armCalls := s.armCalls ++ [⟨s.methodIndex, s.nextId, s.cq, s.self⟩],
    tasks := s.tasks ++ [⟨s.cb, s.receivedCall⟩] }

/-- Deliver a list of completion outcomes to the tag in order, with no
constraint from the event source: every listed completion results in an
invoke call, whether or not an accept is outstanding. -/
def runRaw (s : SUCDState) : List Bool → Option SUCDState
  | [] => some s
  | ok :: rest =>
    match invoke s ok with
    | some s2 => runRaw s2 rest
    | none => none

/-- Construct an acceptor from the given arguments, then deliver the listed
outcomes to it. -/
def reachableFrom (a : CtorArgs) (outs : List Bool) : Option SUCDState :=
  (service_unary_call_data a).bind (fun s => runRaw s outs)

/-- Modelled from the spec: the delivery discipline of the event source,
code outside this repository (the completion queue). Each queue_receive arms
exactly one future completion for this tag, so a completion can only be
delivered while an accept is outstanding; invoke(false) consumes the only
outstanding accept without re-arming, hence nothing further is delivered
after it. -/
def deliver (s : SUCDState) : List Bool → SUCDState
  | [] => s
  | ok :: rest =>
    if ok then
      match invoke s true with
      | some s2 => deliver s2 rest
      | none => s
    else s

/-- Identifier discipline of a reachable state: everything the state mentions
was allocated below the allocation counter, and every handle already detached
to a task is strictly older than the record currently armed. -/
def goodIds (s : SUCDState) : Prop :=
  (∀ r, s.receivedCall = some r → r < s.nextId) ∧
  (∀ t ∈ s.tasks, ∀ hid, t.handle = some hid → hid < s.nextId) ∧
  (∀ t ∈ s.tasks, ∀ hid, t.handle = some hid →
    ∀ r, s.receivedCall = some r → hid < r)

/-- The method index mi is the one stored in the state and carried by every
arm event issued so far. -/
def allArmsAt (mi : Int) (s : SUCDState) : Prop :=
  s.methodIndex = mi ∧ ∀ e ∈ s.armCalls, e.methodIndex = mi

/-- Concrete constructor arguments used to instantiate theorems. -/
def a0 : CtorArgs := ⟨1, 3, some 10, some 20, some 30, 7⟩

/-- The state of the acceptor constructed from a0. -/
def s0val : SUCDState := ⟨7, 1, 3, 10, 20, 30, some 0, 1, [⟨3, 0, 10, 7⟩], []⟩

/-- The state of the acceptor constructed from a0 after one invoke(true). -/
def s1val : SUCDState :=
  ⟨7, 1, 3, 10, 20, 30, some 1, 2, [⟨3, 0, 10, 7⟩, ⟨3, 1, 10, 7⟩], [⟨30, some 0⟩]⟩

/-- A state with an empty _receivedCall slot, to exercise queue_receive. -/
def s6val : SUCDState := ⟨7, 1, 3, 10, 20, 30, none, 5, [], []⟩

/-- invoke on ok = true never trips an assertion: it appends exactly one task
capturing the callback and the detached handle, then re-arms, appending one
arm event carrying the freshly allocated record. -/
theorem invoke_true_eq (s : SUCDState) : invoke s true = some (stepTrue s) := rfl

/-- Constructing from all-non-null arguments yields this exact state: one
record allocated and pending, one arm event, no tasks. -/
theorem ctor_eq (svc : Nat) (mi : Int) (cq tp cb self : Nat) :
    service_unary_call_data ⟨svc, mi, some cq, some tp, some cb, self⟩ =
      some ⟨self, svc, mi, cq, tp, cb, some 0, 1, [⟨mi, 0, cq, self⟩], []⟩ := rfl

/-- runRaw on a successful completion steps to stepTrue. -/
theorem runRaw_cons_true (s : SUCDState) (rest : List Bool) :
    runRaw s (true :: rest) = runRaw (stepTrue s) rest := rfl

/-- runRaw on a failed completion leaves the state unchanged. -/
theorem runRaw_cons_false (s : SUCDState) (rest : List Bool) :
    runRaw s (false :: rest) = runRaw s rest := rfl

/-- deliver on a successful completion steps to stepTrue. -/
theorem deliver_cons_true (s : SUCDState) (rest : List Bool) :
    deliver s (true :: rest) = deliver (stepTrue s) rest := rfl

/-- deliver stops at a failed completion: nothing further is armed, so the
event source has nothing left to deliver. -/
theorem deliver_cons_false (s : SUCDState) (rest : List Bool) :
    deliver s (false :: rest) = s := rfl

/-- C10: invoke(false) leaves every field of the acceptor unchanged: service
reference, method index, completion-queue pointer, thread-pool handle, user
callback, and in particular the _receivedCall slot, which retains the
previously armed CallRecord; no task is scheduled and no arm is issued. -/
theorem C10_invoke_false_frame (s : SUCDState) : invoke s false = some s := rfl

/-- C4: the constructor traps on a null completion queue, a null thread pool
or an empty callback (assertion failure, modelled as none), and under the
precondition that all three are present no assertion fires. -/
theorem C4_ctor_assert (a : CtorArgs) :
    service_unary_call_data a = none ↔
      (a.cq = none ∨ a.threadPool = none ∨ a.cb = none) := by
  rcases a with ⟨svc, mi, cq, tp, cb, self⟩
  cases cq <;> cases tp <;> cases cb <;>
    simp [service_unary_call_data, queue_receive]

/-- C5: construction performs the arm sequence exactly once before returning:
the constructed state records exactly one service.queue_receive call and
holds exactly one pending CallRecord, with no separate start operation. -/
theorem C5_ctor_arms_once (svc : Nat) (mi : Int) (cq tp cb self : Nat) :
    ∃ s, service_unary_call_data ⟨svc, mi, some cq, some tp, some cb, self⟩ =
        some s ∧ s.armCalls.length = 1 ∧ s.receivedCall.isSome :=
  ⟨⟨self, svc, mi, cq, tp, cb, some 0, 1, [⟨mi, 0, cq, self⟩], []⟩, rfl, rfl, rfl⟩

/-- C6: queue_receive asserts that no CallRecord is pending (it traps exactly
when _receivedCall holds a record), and when the slot is empty it allocates
one fresh CallRecord into the slot and registers exactly one new asynchronous
accept for the configured method index against the event queue, tagged with
the acceptor itself. -/
theorem C6_queue_receive_spec (s : SUCDState) :
    (queue_receive s = none ↔ s.receivedCall.isSome) ∧
    (s.receivedCall = none →
      queue_receive s = some { s with
        receivedCall := some s.nextId,
        nextId := s.nextId + 1,
        armCalls := s.armCalls ++ [⟨s.methodIndex, s.nextId, s.cq, s.self⟩] }) := by
  cases h : s.receivedCall <;> simp [queue_receive, h]

/-- Witness for C6: queue_receive on a concrete state with an empty slot. -/
theorem C6_queue_receive_spec_witness :
    queue_receive s6val =
      some ⟨7, 1, 3, 10, 20, 30, some 5, 6, [⟨3, 5, 10, 7⟩], []⟩ :=
  (C6_queue_receive_spec s6val).2 rfl

/-- A block of n successful completions always goes through (no assertion can
fire) and adds exactly n tasks and n arm events. -/
theorem runRaw_replicate_true (n : Nat) :
    ∀ s : SUCDState, ∃ s2, runRaw s (List.replicate n true) = some s2 ∧
      s2.tasks.length = s.tasks.length + n ∧
      s2.armCalls.length = s.armCalls.length + n := by
  induction n with
  | zero => exact fun s => ⟨s, rfl, rfl, rfl⟩
  | succ k ih =>
    intro s
    obtain ⟨s2, h1, h2, h3⟩ := ih (stepTrue s)
    refine ⟨s2, ?_, ?_, ?_⟩
    · rw [List.replicate_succ, runRaw_cons_true]
      exact h1
    · rw [h2]
      simp [stepTrue]
      omega
    · rw [h3]
      simp [stepTrue]
      omega

/-- C1: on a fresh acceptor (constructed with non-null collaborators), a
sequence of exactly n invoke(true) calls submits exactly n tasks to the
worker pool (one schedule per invoke) and performs exactly n + 1 arm
operations: the service.queue_receive of construction plus one re-arm per
invoke(true). -/
theorem C1_replicate_true_counts (svc : Nat) (mi : Int) (cq tp cb self : Nat)
    (n : Nat) :
    ∃ s, reachableFrom ⟨svc, mi, some cq, some tp, some cb, self⟩
        (List.replicate n true) = some s ∧
      s.tasks.length = n ∧ s.armCalls.length = n + 1 := by
  obtain ⟨s2, h1, h2, h3⟩ := runRaw_replicate_true n
    ⟨self, svc, mi, cq, tp, cb, some 0, 1, [⟨mi, 0, cq, self⟩], []⟩
  refine ⟨s2, ?_, ?_, ?_⟩
  · rw [reachableFrom, ctor_eq, Option.some_bind]
    exact h1
  · simp at h2
    omega
  · simp at h3
    omega

/-- C2 fails as stated: the code has no terminal latch, so an invoke(true)
delivered after an invoke(false) still detaches, schedules a task and
re-arms. After outcomes [false] the trace holds one arm event and no task;
delivering a further true outcome grows it to two arm events and one task. -/
theorem C2_counterexample :
    (reachableFrom a0 [false]).map
        (fun s => (s.armCalls.length, s.tasks.length)) = some (1, 0) ∧
    (reachableFrom a0 [false, true]).map
        (fun s => (s.armCalls.length, s.tasks.length)) = some (2, 1) :=
  ⟨rfl, rfl⟩

/-- Once a false outcome is reached, the event source delivers nothing
further (nothing is armed any more), so any remaining listed outcomes are
irrelevant to the final state. -/
theorem deliver_shutdown (p : List Bool) :
    ∀ (s : SUCDState) (q : List Bool),
      deliver s (p ++ false :: q) = deliver s (p ++ [false]) := by
  induction p with
  | nil => intro s q; rfl
  | cons ok p2 ih =>
    intro s q
    cases ok
    · rfl
    · rw [List.cons_append, deliver_cons_true, List.cons_append,
        deliver_cons_true]
      exact ih (stepTrue s) q

/-- C2 (amended): after an invoke(false), no subsequent arm operation occurs
and no subsequent task is submitted, provided no further invoke call is
delivered — which the delivery discipline of the event source guarantees,
since invoke(false) consumes the only outstanding accept and does not
re-arm. (The acceptor itself has no terminal latch: an out-of-contract
invoke(true) would still arm and schedule, see the counterexample.) -/
theorem C2_terminal_after_false (s : SUCDState) (p q : List Bool) :
    (deliver s (p ++ false :: q)).armCalls =
      (deliver s (p ++ [false])).armCalls ∧
    (deliver s (p ++ false :: q)).tasks = (deliver s (p ++ [false])).tasks := by
  rw [deliver_shutdown p s q]
  exact ⟨rfl, rfl⟩

/-- C3 fails in its shutdown clause: after invoke(false) the _receivedCall
slot still holds the CallRecord armed by the last queue_receive (record 0
here), not zero records. -/
theorem C3_counterexample :
    (reachableFrom a0 [false]).map SUCDState.receivedCall = some (some 0) :=
  rfl

/-- runRaw preserves a non-empty _receivedCall slot. -/
theorem runRaw_received_isSome :
    ∀ (outs : List Bool) (s0 s2 : SUCDState), s0.receivedCall.isSome →
      runRaw s0 outs = some s2 → s2.receivedCall.isSome := by
  intro outs
  induction outs with
  | nil =>
    intro s0 s2 hg heq
    replace heq : some s0 = some s2 := heq
    injection heq with heq
    subst heq
    exact hg
  | cons ok rest ih =>
    intro s0 s2 hg heq
    cases ok
    · rw [runRaw_cons_false] at heq
      exact ih s0 s2 hg heq
    · rw [runRaw_cons_true] at heq
      exact ih (stepTrue s0) s2 rfl heq

/-- The constructor always leaves the slot holding the record it armed. -/
theorem ctor_received_isSome (a : CtorArgs) (s0 : SUCDState)
    (h : service_unary_call_data a = some s0) : s0.receivedCall.isSome := by
  rcases a with ⟨svc, mi, cq, tp, cb, self⟩
  cases cq <;> cases tp <;> cases cb <;>
    first
      | (rw [ctor_eq] at h
         injection h with h
         subst h
         rfl)
      | simp [service_unary_call_data] at h

/-- C3 (amended): between invoke calls the acceptor holds precisely zero or
one pending CallRecord (the slot is a single option), and in every reachable
state it holds exactly one: one while an accept is outstanding, and — unlike
the claim — still one after shutdown, because invoke(false) retains the last
armed record; the slot is empty only during the internal detach-then-
recreate transition inside invoke(true). -/
theorem C3_slot_one_record (a : CtorArgs) (outs : List Bool) (s : SUCDState)
    (h : reachableFrom a outs = some s) : s.receivedCall.isSome := by
  rw [reachableFrom] at h
  obtain ⟨s0, h0, h1⟩ := Option.bind_eq_some.mp h
  exact runRaw_received_isSome outs s0 s (ctor_received_isSome a s0 h0) h1

/-- Witness for C3 (amended): the slot still holds a record after the trace
true, false. -/
theorem C3_slot_one_record_witness :
    reachableFrom a0 [true, false] = some s1val ∧ s1val.receivedCall.isSome :=
  ⟨rfl, C3_slot_one_record a0 [true, false] s1val rfl⟩

/-- invoke preserves the identifier discipline. -/
theorem goodIds_invoke (s s2 : SUCDState) (ok : Bool)
    (hg : goodIds s) (h : invoke s ok = some s2) : goodIds s2 := by
  obtain ⟨h1, h2, h3⟩ := hg
  cases ok
  · replace h : some s = some s2 := h
    injection h with h
    subst h
    exact ⟨h1, h2, h3⟩
  · rw [invoke_true_eq] at h
    injection h with h
    subst h
    refine ⟨?_, ?_, ?_⟩
    · intro r hr
      replace hr : some s.nextId = some r := hr
      injection hr with hr
      subst hr
      exact Nat.lt_succ_self _
    · intro t ht hid hh
      replace ht : t ∈ s.tasks ++ [⟨s.cb, s.receivedCall⟩] := ht
      rcases List.mem_append.mp ht with ht | ht
      · exact Nat.lt_succ_of_lt (h2 t ht hid hh)
      · obtain rfl := List.mem_singleton.mp ht
        replace hh : s.receivedCall = some hid := hh
        exact Nat.lt_succ_of_lt (h1 hid hh)
    · intro t ht hid hh r hr
      replace hr : some s.nextId = some r := hr
      injection hr with hr
      subst hr
      replace ht : t ∈ s.tasks ++ [⟨s.cb, s.receivedCall⟩] := ht
      rcases List.mem_append.mp ht with ht | ht
      · exact h2 t ht hid hh
      · obtain rfl := List.mem_singleton.mp ht
        replace hh : s.receivedCall = some hid := hh
        exact h1 hid hh

/-- runRaw preserves the identifier discipline. -/
theorem goodIds_runRaw :
    ∀ (outs : List Bool) (s0 s2 : SUCDState), goodIds s0 →
      runRaw s0 outs = some s2 → goodIds s2 := by
  intro outs
  induction outs with
  | nil =>
    intro s0 s2 hg heq
    replace heq : some s0 = some s2 := heq
    injection heq with heq
    subst heq
    exact hg
  | cons ok rest ih =>
    intro s0 s2 hg heq
    cases ok
    · rw [runRaw_cons_false] at heq
      exact ih s0 s2 hg heq
    · rw [runRaw_cons_true] at heq
      exact ih (stepTrue s0) s2
        (goodIds_invoke s0 (stepTrue s0) true hg (invoke_true_eq s0)) heq

/-- The constructor establishes the identifier discipline. -/
theorem goodIds_ctor (a : CtorArgs) (s0 : SUCDState)
    (h : service_unary_call_data a = some s0) : goodIds s0 := by
  rcases a with ⟨svc, mi, cq, tp, cb, self⟩
  cases cq <;> cases tp <;> cases cb <;>
    first
      | (rw [ctor_eq] at h
         injection h with h
         subst h
         refine ⟨?_, ?_, ?_⟩
         · intro r hr
           replace hr : some 0 = some r := hr
           injection hr with hr
           subst hr
           exact Nat.one_pos
         · intro t ht
           replace ht : t ∈ ([] : List Task) := ht
           exact absurd ht (List.not_mem_nil t)
         · intro t ht
           replace ht : t ∈ ([] : List Task) := ht
           exact absurd ht (List.not_mem_nil t))
      | simp [service_unary_call_data] at h

/-- Every reachable state satisfies the identifier discipline. -/
theorem goodIds_reachable (a : CtorArgs) (outs : List Bool) (s : SUCDState)
    (h : reachableFrom a outs = some s) : goodIds s := by
  rw [reachableFrom] at h
  obtain ⟨s0, h0, h1⟩ := Option.bind_eq_some.mp h
  exact goodIds_runRaw outs s0 s (goodIds_ctor a s0 h0) h1

/-- C7: on a reachable state holding pending record r, invoke(true) performs
in order: (1) detach r, leaving the slot empty within the step and capturing
r in a shared handle; (2) submit exactly one task pairing the user callback
with that handle; (3) within the same call, unconditionally re-arm: allocate
the brand-new record nextId (distinct from r) and issue one new
service.queue_receive for the same method index, against the same event
queue, tagged with the same acceptor. The re-arm is part of invoke itself —
tasks are only recorded as submitted, never executed, by this state machine,
so the re-arm is neither deferred behind nor conditioned on the execution of
the task of step (2). -/
theorem C7_invoke_true_steps (a : CtorArgs) (outs : List Bool) (s : SUCDState)
    (r : Nat) (hre : reachableFrom a outs = some s)
    (hrc : s.receivedCall = some r) :
    invoke s true = some { s with
      receivedCall := some s.nextId,
      nextId := s.nextId + 1,
      armCalls := s.armCalls ++ [⟨s.methodIndex, s.nextId, s.cq, s.self⟩],
      tasks := s.tasks ++ [⟨s.cb, some r⟩] } ∧
    s.nextId ≠ r := by
  have hg := goodIds_reachable a outs s hre
  constructor
  · rw [invoke_true_eq, stepTrue, hrc]
  · exact (hg.1 r hrc).ne'

/-- Witness for C7: one step from the freshly constructed acceptor. -/
theorem C7_invoke_true_steps_witness :
    invoke s0val true = some s1val ∧ s0val.nextId ≠ 0 :=
  C7_invoke_true_steps a0 [] s0val 0 rfl rfl

/-- runRaw preserves the stored method index and the method index carried by
every arm event. -/
theorem allArmsAt_runRaw :
    ∀ (outs : List Bool) (mi : Int) (s0 s2 : SUCDState), allArmsAt mi s0 →
      runRaw s0 outs = some s2 → allArmsAt mi s2 := by
  intro outs
  induction outs with
  | nil =>
    intro mi s0 s2 hp heq
    replace heq : some s0 = some s2 := heq
    injection heq with heq
    subst heq
    exact hp
  | cons ok rest ih =>
    intro mi s0 s2 hp heq
    cases ok
    · rw [runRaw_cons_false] at heq
      exact ih mi s0 s2 hp heq
    · rw [runRaw_cons_true] at heq
      refine ih mi (stepTrue s0) s2 ⟨hp.1, ?_⟩ heq
      intro e he
      replace he : e ∈ s0.armCalls ++
        [⟨s0.methodIndex, s0.nextId, s0.cq, s0.self⟩] := he
      rcases List.mem_append.mp he with he | he
      · exact hp.2 e he
      · obtain rfl := List.mem_singleton.mp he
        exact hp.1

/-- The constructor stores the given method index and stamps it on the one
arm event it issues. -/
theorem allArmsAt_ctor (a : CtorArgs) (s0 : SUCDState)
    (h : service_unary_call_data a = some s0) : allArmsAt a.methodIndex s0 := by
  rcases a with ⟨svc, mi, cq, tp, cb, self⟩
  cases cq <;> cases tp <;> cases cb <;>
    first
      | (rw [ctor_eq] at h
         injection h with h
         subst h
         refine ⟨rfl, ?_⟩
         intro e he
         obtain rfl := List.mem_singleton.mp he
         rfl)
      | simp [service_unary_call_data] at h

/-- C8: the method index stored at construction is immutable and passed
through unchanged: in every reachable state the stored index equals the
constructor argument, and every service.queue_receive event ever issued
carries exactly that index. -/
theorem C8_method_index_stable (a : CtorArgs) (outs : List Bool)
    (s : SUCDState) (h : reachableFrom a outs = some s) :
    s.methodIndex = a.methodIndex ∧
    ∀ e ∈ s.armCalls, e.methodIndex = a.methodIndex := by
  rw [reachableFrom] at h
  obtain ⟨s0, h0, h1⟩ := Option.bind_eq_some.mp h
  exact allArmsAt_runRaw outs a.methodIndex s0 s (allArmsAt_ctor a s0 h0) h1

/-- Witness for C8: both arm events of a concrete two-arm run carry method
index 3, the index given at construction. -/
theorem C8_method_index_stable_witness :
    s1val.methodIndex = a0.methodIndex ∧
    (ArmEvent.mk 3 1 10 7).methodIndex = a0.methodIndex :=
  ⟨(C8_method_index_stable a0 [true] s1val rfl).1,
   (C8_method_index_stable a0 [true] s1val rfl).2 ⟨3, 1, 10, 7⟩ (by decide)⟩

/-- C9: in every reachable state, the pending CallRecord is distinct from
every record previously detached to a dispatched task: each arm allocates a
fresh record, so the record armed for receipt never aliases a record already
handed to the worker pool. -/
theorem C9_no_aliasing (a : CtorArgs) (outs : List Bool) (s : SUCDState)
    (r : Nat) (h : reachableFrom a outs = some s)
    (hr : s.receivedCall = some r) :
    ∀ t ∈ s.tasks, t.handle ≠ some r := by
  intro t ht hcontra
  have hg := goodIds_reachable a outs s h
  exact absurd (hg.2.2 t ht r hcontra r hr) (lt_irrefl r)

/-- Witness for C9: after one dispatch, the detached handle 0 differs from
the pending record 1. -/
theorem C9_no_aliasing_witness : (Task.mk 30 (some 0)).handle ≠ some 1 :=
  C9_no_aliasing a0 [true] s1val 1 rfl rfl ⟨30, some 0⟩ (by decide)

end BondGrpc
